import Mathlib

/-!
Verification of the session registry and relay router of the cloud relay
server (`src/server.js`).  The JavaScript `Map`s `agents`, `controllers`
and `pairingCodes`, the `Set` of associated agent ids, and the socket
event handlers (`controller:register`, `agent:register`, the control and
agent relay handlers, and `disconnect`) are embedded as executable Lean
functions over an explicit server state.  Randomness (`Math.random` in
`generateCode`) and wall-clock time (`Date.now`) are passed in as
parameters; socket connectivity (`socket.connected`) is a boolean
snapshot parameter.
-/

namespace Relay

/-- JavaScript-style association map keyed by strings, preserving the
insertion-order semantics of `Map` (`set` replaces in place, appends when
the key is new). -/
abbrev SMap (V : Type) := List (String × V)

/-- `Map.get`: the value at the first entry whose key matches. -/
def mget {V : Type} (m : SMap V) (k : String) : Option V :=
  match m with
  | [] => none
  | (k', v) :: rest => if k' = k then some v else mget rest k

/-- `Map.set`: replace the first entry with this key, or append. -/
def mset {V : Type} (m : SMap V) (k : String) (v : V) : SMap V :=
  match m with
  | [] => [(k, v)]
  | (k', v') :: rest => if k' = k then (k, v) :: rest else (k', v') :: mset rest k v

/-- `Map.delete`: remove the entry with this key. -/
def mdel {V : Type} (m : SMap V) (k : String) : SMap V :=
  m.filter (fun p => p.1 != k)

/-- The keys of an association map. -/
def mkeys {V : Type} (m : SMap V) : List String :=
  m.map Prod.fst

/-- JavaScript `Set` add: append when absent (insertion order kept). -/
def sadd (s : List String) (a : String) : List String :=
  if a ∈ s then s else s ++ [a]

/-- JavaScript `Set` delete. -/
def sdel (s : List String) (a : String) : List String :=
  s.filter (fun x => x != a)

/-- The metadata object supplied at registration (`info`); the server only
projects the fields `hostname`, `username`, `platform`, `screens`. -/
structure Info where
  hostname : Option String
  username : Option String
  platform : Option String
  screens : Option String
deriving DecidableEq, Repr

/-- Entry of the `agents` map: `agents.set(agentId, { socket, info, controllerId })`. -/
structure AgentEntry where
  info : Info
  controllerId : String
deriving DecidableEq, Repr

/-- Entry of the `controllers` map:
`controllers.set(controllerId, { socket, info, code, agentIds })`. -/
structure ControllerEntry where
  info : Info
  code : String
  agentIds : List String
deriving DecidableEq, Repr

/-- Entry of the `pairingCodes` map:
`pairingCodes.set(code, { controllerId, created })`. -/
structure PairingEntry where
  controllerId : String
  created : Nat
deriving DecidableEq, Repr

/-- The three process-wide mutable maps of the server. -/
structure ServerState where
  agents : SMap AgentEntry
  controllers : SMap ControllerEntry
  pairingCodes : SMap PairingEntry
deriving DecidableEq, Repr

/-- The state at process start: all three maps empty. -/
def initState : ServerState := ⟨[], [], []⟩

/-- A routed payload: the router reads/writes only the address fields
`agentId` and `targetAgent`; everything else is the opaque `rest`. -/
structure Payload where
  agentId : Option String
  targetAgent : Option String
  rest : String
deriving DecidableEq, Repr

/-- Data carried by an emitted socket event. -/
inductive EmitData where
  | empty : EmitData
  | relayed (p : Payload) : EmitData
  | controllerRegistered (controllerId code : String) : EmitData
  | agentList (l : List (String × Info)) : EmitData
  | agentRegistered (agentId controllerId : String) : EmitData
  | agentError (msg : String) : EmitData
  | agentJoined (id : String) (info : Info) : EmitData
  | agentLeft (agentId : String) : EmitData
deriving DecidableEq, Repr

/-- One `socket.emit` performed by a handler: destination connection,
event name, data. -/
structure Emission where
  dest : String
  event : String
  data : EmitData
deriving DecidableEq, Repr

/-- `generateCode()`: `Math.floor(100000 + Math.random() * 900000).toString()`.
The random draw is modelled by the parameter `rand`; the result is a
6-digit numeric string.  Note that the function consults no server
state. -/
def generateCode (rand : Nat) : String :=
  toString (100000 + rand % 900000)

/-- JavaScript truthiness of an optional string field (`undefined` and the
empty string are falsy). -/
def truthy (o : Option String) : Bool :=
  match o with
  | none => false
  | some s => s != ""

/-- JavaScript `a || b` on optional string fields. -/
def jsOr (a b : Option String) : Option String :=
  if truthy a then a else b

/-- Handler for `controller:register`: stores the controller with a fresh
code and an empty agent set, maps the code in `pairingCodes`, acks with
`controller:registered` and sends the current `controller:agent-list`. -/
def controllerRegister (connId : String) (info : Info) (rand : Nat) (now : Nat)
    (st : ServerState) : ServerState × List Emission :=
  let code := generateCode rand
  let controllers' := mset st.controllers connId ⟨info, code, []⟩
  let pairingCodes' := mset st.pairingCodes code ⟨connId, now⟩
  let st' : ServerState := ⟨st.agents, controllers', pairingCodes'⟩
  let agentList := (st'.agents.filter (fun p => p.2.controllerId == connId)).map
    (fun p => (p.1, p.2.info))
  (st', [⟨connId, "controller:registered", .controllerRegistered connId code⟩,
         ⟨connId, "controller:agent-list", .agentList agentList⟩])

/-- Handler for `agent:register`: resolves the pairing code, then the
controller; on failure emits `agent:error` and mutates nothing; on
success inserts the agent, adds it to the controller's `agentIds`, acks
with `agent:registered` and notifies the controller with
`controller:agent-joined`. -/
def agentRegister (connId : String) (code : String) (info : Info)
    (st : ServerState) : ServerState × List Emission :=
  match mget st.pairingCodes code with
  | none => (st, [⟨connId, "agent:error", .agentError "Invalid pairing code"⟩])
  | some pairing =>
    match mget st.controllers pairing.controllerId with
    | none => (st, [⟨connId, "agent:error", .agentError "Controller not found"⟩])
    | some controller =>
      let agents' := mset st.agents connId ⟨info, pairing.controllerId⟩
      let controllers' := mset st.controllers pairing.controllerId
        ⟨controller.info, controller.code, sadd controller.agentIds connId⟩
      (⟨agents', controllers', st.pairingCodes⟩,
       [⟨connId, "agent:registered", .agentRegistered connId pairing.controllerId⟩,
        ⟨pairing.controllerId, "controller:agent-joined", .agentJoined connId info⟩])

/-- Handler installed for every name in `controlEvents`: reads
`data?.agentId || data?.targetAgent`, and when that is truthy, the target
resolves in `agents`, and the target socket is connected, forwards the
payload verbatim to the target.  The sender's identity and role are never
consulted and no map is mutated. -/
def relayControl (senderId : String) (event : String) (data : Payload)
    (live : String → Bool) (st : ServerState) : ServerState × List Emission :=
  match jsOr data.agentId data.targetAgent with
  | some t =>
    if t != "" then
      match mget st.agents t with
      | some _ => if live t then (st, [⟨t, event, .relayed data⟩]) else (st, [])
      | none => (st, [])
    else (st, [])
  | none => (st, [])

/-- Handler installed for every name in `agentEvents`: looks the sender up
in `agents`; when registered and its controller is live, forwards
`{ ...data, agentId: socket.id }` — the sender's connection id overrides
any `agentId` the payload carried. -/
def relayAgentEvent (senderId : String) (event : String) (data : Payload)
    (live : String → Bool) (st : ServerState) : ServerState × List Emission :=
  match mget st.agents senderId with
  | none => (st, [])
  | some agent =>
    match mget st.controllers agent.controllerId with
    | none => (st, [])
    | some _ =>
      if live agent.controllerId then
        (st, [⟨agent.controllerId, event, .relayed ⟨some senderId, data.targetAgent, data.rest⟩⟩])
      else (st, [])

/-- First half of the `disconnect` handler: if the connection was an
agent, remove it from its controller's `agentIds` (notifying the
controller with `controller:agent-left`) and delete it from `agents`. -/
def disconnectAgentPhase (connId : String) (st : ServerState) :
    ServerState × List Emission :=
  match mget st.agents connId with
  | none => (st, [])
  | some agent =>
    match mget st.controllers agent.controllerId with
    | some controller =>
      (⟨mdel st.agents connId,
        mset st.controllers agent.controllerId
          ⟨controller.info, controller.code, sdel controller.agentIds connId⟩,
        st.pairingCodes⟩,
       [⟨agent.controllerId, "controller:agent-left", .agentLeft connId⟩])
    | none => (⟨mdel st.agents connId, st.controllers, st.pairingCodes⟩, [])

/-- Second half of the `disconnect` handler: if the connection was a
controller, emit `agent:controller-disconnected` to every member of its
`agentIds` that resolves in `agents`, delete every pairing code owned by
it, and delete it from `controllers`. -/
def disconnectControllerPhase (connId : String) (st : ServerState) :
    ServerState × List Emission :=
  match mget st.controllers connId with
  | none => (st, [])
  | some controller =>
    let notifs := (controller.agentIds.filter
        (fun a => (mget st.agents a).isSome)).map
      (fun a => (⟨a, "agent:controller-disconnected", .empty⟩ : Emission))
    (⟨st.agents,
      mdel st.controllers connId,
      st.pairingCodes.filter (fun p => p.2.controllerId != connId)⟩,
     notifs)

/-- Full `disconnect` handler: the agent branch runs first, then the
controller branch on the updated state. -/
def disconnect (connId : String) (st : ServerState) :
    ServerState × List Emission :=
  let r1 := disconnectAgentPhase connId st
  let r2 := disconnectControllerPhase connId r1.1
  (r2.1, r1.2 ++ r2.2)

/-- A registry operation, for reasoning about operation sequences. -/
inductive Op where
  | ctrlReg (connId : String) (info : Info) (rand : Nat) (now : Nat) : Op
  | agentReg (connId : String) (code : String) (info : Info) : Op
  | disc (connId : String) : Op
deriving DecidableEq, Repr

/-- State transition of one operation (emissions discarded). -/
def step (st : ServerState) (op : Op) : ServerState :=
  match op with
  | .ctrlReg c i r n => (controllerRegister c i r n st).1
  | .agentReg c k i => (agentRegister c k i st).1
  | .disc c => (disconnect c st).1

/-- The state reached by a sequence of operations from process start. -/
def run (ops : List Op) : ServerState :=
  ops.foldl step initState

/-- Connection ids that perform an agent registration in a sequence. -/
def agentRegTargets (ops : List Op) : List String :=
  ops.filterMap (fun op => match op with
    | .agentReg c _ _ => some c
    | _ => none)

/-- Connection ids that perform a controller registration in a sequence. -/
def ctrlRegTargets (ops : List Op) : List String :=
  ops.filterMap (fun op => match op with
    | .ctrlReg c _ _ _ => some c
    | _ => none)

/-- C1's invariant: every id in a live controller's `agentIds` is a key of
`agents` whose `controllerId` is that controller. -/
def agentLinkInv (st : ServerState) : Prop :=
  ∀ c ce, mget st.controllers c = some ce →
    ∀ a ∈ ce.agentIds, ∃ ae, mget st.agents a = some ae ∧ ae.controllerId = c

/-- C2's invariant: every live agent's `controllerId` resolves to a live
controller. -/
def agentControllerLive (st : ServerState) : Prop :=
  ∀ a ae, mget st.agents a = some ae → (mget st.controllers ae.controllerId).isSome = true

/-- C6's invariant: a connection id is in at most one of the two role maps. -/
def roleExclusive (st : ServerState) : Prop :=
  ∀ c, ¬((mget st.agents c).isSome = true ∧ (mget st.controllers c).isSome = true)

/-- C7's invariant: no two live pairing codes are owned by the same live
controller. -/
def codeOwnershipInv (st : ServerState) : Prop :=
  ∀ k1 e1 k2 e2, mget st.pairingCodes k1 = some e1 →
    mget st.pairingCodes k2 = some e2 →
    e1.controllerId = e2.controllerId →
    (mget st.controllers e1.controllerId).isSome = true →
    k1 = k2

/-- Executable check that one agent id resolves under a given controller. -/
def agentOk (st : ServerState) (cid a : String) : Bool :=
  match mget st.agents a with
  | some ae => ae.controllerId == cid
  | none => false

/-- A concrete metadata value for tests and counterexamples. -/
def sampleInfo : Info := ⟨none, none, none, none⟩

/-- A concrete reachable state: controller `c` with code `111111` and two
associated agents `a` and `b`. -/
def wState : ServerState :=
  ⟨[("a", ⟨sampleInfo, "c"⟩), ("b", ⟨sampleInfo, "c"⟩)],
   [("c", ⟨sampleInfo, "111111", ["a", "b"]⟩)],
   [("111111", ⟨"c", 0⟩)]⟩

/-- A state whose pairing code references a controller id absent from the
controllers map. -/
def wGhostState : ServerState := ⟨[], [], [("111111", ⟨"c", 0⟩)]⟩

/-- Agent `a` registers under `c1`, then re-registers under `c2`: `c1`'s
`agentIds` keeps the stale entry. -/
def badTraceC1 : List Op :=
  [.ctrlReg "c1" sampleInfo 11111 0, .ctrlReg "c2" sampleInfo 122222 0,
   .agentReg "a" "111111" sampleInfo, .agentReg "a" "222222" sampleInfo]

/-- Controller `c` registers, agent `a` joins, `c` disconnects: `a`'s
entry still carries `controllerId = "c"`. -/
def badTraceC2 : List Op :=
  [.ctrlReg "c" sampleInfo 11111 0, .agentReg "a" "111111" sampleInfo, .disc "c"]

/-- Connection `c` registers as controller, then as agent with its own
code: it ends up in both role maps. -/
def badTraceC6 : List Op :=
  [.ctrlReg "c" sampleInfo 11111 0, .agentReg "c" "111111" sampleInfo]

/-- Connection `c` registers as controller twice: both issued codes stay
live and map to `c`. -/
def badTraceC7 : List Op :=
  [.ctrlReg "c" sampleInfo 11111 0, .ctrlReg "c" sampleInfo 122222 0]

/-- A well-behaved trace: two controllers and one agent, each connection
registering exactly once, in exactly one role. -/
def goodTrace : List Op :=
  [.ctrlReg "c1" sampleInfo 11111 0, .ctrlReg "c2" sampleInfo 122222 0,
   .agentReg "a" "111111" sampleInfo]

/-- No connection id both agent-registers and controller-registers in the
sequence. -/
def disjointTargets (ops : List Op) : Bool :=
  (agentRegTargets ops).all (fun x => decide (x ∉ ctrlRegTargets ops))

theorem mkeys_nil {V : Type} : mkeys ([] : SMap V) = [] := rfl

theorem mkeys_cons {V : Type} (a : String) (b : V) (rest : SMap V) :
    mkeys ((a, b) :: rest) = a :: mkeys rest := rfl

theorem mget_mset_self {V : Type} (m : SMap V) (k : String) (v : V) :
    mget (mset m k v) k = some v := by
  induction m with
  | nil => simp [mset, mget]
  | cons p rest ih =>
    obtain ⟨k', v'⟩ := p
    by_cases h : k' = k
    · simp [mset, h, mget]
    · simp [mset, h, mget, ih]

theorem mget_mset_ne {V : Type} (m : SMap V) (k k' : String) (v : V) (h : k' ≠ k) :
    mget (mset m k v) k' = mget m k' := by
  induction m with
  | nil => simp [mset, mget, Ne.symm h]
  | cons p rest ih =>
    obtain ⟨a, b⟩ := p
    by_cases ha : a = k
    · subst ha
      simp [mset, mget, Ne.symm h]
    · simp [mset, ha, mget, ih]

theorem mget_eq_none_of_not_mem {V : Type} (m : SMap V) (k : String)
    (h : k ∉ mkeys m) : mget m k = none := by
  induction m with
  | nil => rfl
  | cons p rest ih =>
    obtain ⟨a, b⟩ := p
    rw [mkeys_cons, List.mem_cons] at h
    push_neg at h
    simp [mget, Ne.symm h.1, ih h.2]

theorem mem_mkeys_of_mget_eq_some {V : Type} (m : SMap V) (k : String) (e : V)
    (h : mget m k = some e) : k ∈ mkeys m := by
  induction m with
  | nil => simp [mget] at h
  | cons p rest ih =>
    obtain ⟨a, b⟩ := p
    rw [mkeys_cons, List.mem_cons]
    by_cases ha : a = k
    · exact Or.inl ha.symm
    · simp only [mget, if_neg ha] at h
      exact Or.inr (ih h)

theorem mem_mkeys_mset {V : Type} (m : SMap V) (k x : String) (v : V)
    (h : x ∈ mkeys (mset m k v)) : x ∈ mkeys m ∨ x = k := by
  induction m with
  | nil =>
    simp [mset, mkeys_cons, mkeys_nil] at h
    exact Or.inr h
  | cons p rest ih =>
    obtain ⟨a, b⟩ := p
    by_cases ha : a = k
    · subst ha
      simp [mset, mkeys_cons, List.mem_cons] at h
      rw [mkeys_cons, List.mem_cons]
      tauto
    · simp only [mset, if_neg ha, mkeys_cons, List.mem_cons] at h
      rw [mkeys_cons, List.mem_cons]
      rcases h with h | h
      · tauto
      · rcases ih h with h' | h' <;> tauto

theorem nodup_mkeys_mset {V : Type} (m : SMap V) (k : String) (v : V)
    (h : (mkeys m).Nodup) : (mkeys (mset m k v)).Nodup := by
  induction m with
  | nil => simp [mset, mkeys_cons, mkeys_nil]
  | cons p rest ih =>
    obtain ⟨a, b⟩ := p
    rw [mkeys_cons, List.nodup_cons] at h
    by_cases ha : a = k
    · subst ha
      have hms : mset ((a, b) :: rest) a v = (a, v) :: rest := by simp [mset]
      rw [hms, mkeys_cons, List.nodup_cons]
      exact h
    · simp only [mset, if_neg ha, mkeys_cons, List.nodup_cons]
      refine ⟨fun hx => ?_, ih h.2⟩
      rcases mem_mkeys_mset rest k a v hx with h' | h'
      · exact h.1 h'
      · exact ha h'

theorem mem_mkeys_filter {V : Type} (m : SMap V) (p : String × V → Bool)
    (x : String) (h : x ∈ mkeys (m.filter p)) : x ∈ mkeys m := by
  induction m with
  | nil => simpa [mkeys_nil] using h
  | cons q rest ih =>
    obtain ⟨a, b⟩ := q
    rw [mkeys_cons, List.mem_cons]
    by_cases hp : p (a, b) = true
    · rw [List.filter_cons_of_pos hp, mkeys_cons, List.mem_cons] at h
      rcases h with h | h
      · exact Or.inl h
      · exact Or.inr (ih h)
    · rw [List.filter_cons_of_neg (by simpa using hp)] at h
      exact Or.inr (ih h)

theorem nodup_mkeys_filter {V : Type} (m : SMap V) (p : String × V → Bool)
    (h : (mkeys m).Nodup) : (mkeys (m.filter p)).Nodup := by
  induction m with
  | nil => simpa [mkeys_nil] using h
  | cons q rest ih =>
    obtain ⟨a, b⟩ := q
    rw [mkeys_cons, List.nodup_cons] at h
    by_cases hp : p (a, b) = true
    · rw [List.filter_cons_of_pos hp, mkeys_cons, List.nodup_cons]
      exact ⟨fun hx => h.1 (mem_mkeys_filter rest p a hx), ih h.2⟩
    · rw [List.filter_cons_of_neg (by simpa using hp)]
      exact ih h.2

theorem mget_filter_eq_some {V : Type} (m : SMap V) (p : String × V → Bool)
    (k : String) (e : V) (h : (mkeys m).Nodup) :
    mget (m.filter p) k = some e ↔ mget m k = some e ∧ p (k, e) = true := by
  induction m with
  | nil => simp [mget]
  | cons q rest ih =>
    obtain ⟨a, b⟩ := q
    rw [mkeys_cons, List.nodup_cons] at h
    have hrest := ih h.2
    by_cases ha : a = k
    · subst ha
      have hnone : mget (rest.filter p) a = none :=
        mget_eq_none_of_not_mem _ _ (fun hm => h.1 (mem_mkeys_filter rest p a hm))
      by_cases hp : p (a, b) = true
      · rw [List.filter_cons_of_pos hp]
        rw [show mget ((a, b) :: List.filter p rest) a = some b from by simp [mget],
            show mget ((a, b) :: rest) a = some b from by simp [mget]]
        simp only [Option.some.injEq]
        constructor
        · rintro rfl
          exact ⟨rfl, hp⟩
        · rintro ⟨rfl, h2⟩
          rfl
      · rw [List.filter_cons_of_neg (by simpa using hp), hnone]
        simp only [mget, if_pos rfl]
        constructor
        · intro hc; cases hc
        · rintro ⟨hc, hpc⟩
          cases hc
          exact absurd hpc (by simpa using hp)
    · by_cases hp : p (a, b) = true
      · rw [List.filter_cons_of_pos hp]
        simp only [mget, if_neg ha]
        exact hrest
      · rw [List.filter_cons_of_neg (by simpa using hp)]
        simp only [mget, if_neg ha]
        exact hrest

theorem mget_filter_eq_none {V : Type} (m : SMap V) (p : String × V → Bool)
    (k : String) (e : V) (h : (mkeys m).Nodup)
    (he : mget m k = some e) (hp : p (k, e) = false) :
    mget (m.filter p) k = none := by
  cases hres : mget (m.filter p) k with
  | none => rfl
  | some e' =>
    have hh := (mget_filter_eq_some m p k e' h).mp hres
    rw [he] at hh
    obtain ⟨h1, h2⟩ := hh
    cases h1
    rw [hp] at h2
    cases h2

theorem mget_mdel_self {V : Type} (m : SMap V) (k : String) :
    mget (mdel m k) k = none := by
  induction m with
  | nil => rfl
  | cons p rest ih =>
    obtain ⟨a, b⟩ := p
    by_cases ha : a = k
    · subst ha
      rw [mdel, List.filter_cons_of_neg (by simp)]
      exact ih
    · rw [mdel, List.filter_cons_of_pos (by simpa using ha)]
      simpa [mget, ha] using ih

theorem mget_mdel_ne {V : Type} (m : SMap V) (k k' : String) (h : k' ≠ k) :
    mget (mdel m k) k' = mget m k' := by
  induction m with
  | nil => rfl
  | cons p rest ih =>
    obtain ⟨a, b⟩ := p
    by_cases ha : a = k
    · subst ha
      rw [mdel, List.filter_cons_of_neg (by simp)]
      rw [show mget ((a, b) :: rest) k' = mget rest k' by simp [mget, Ne.symm h]]
      exact ih
    · rw [mdel, List.filter_cons_of_pos (by simpa using ha)]
      by_cases ha' : a = k'
      · simp [mget, ha']
      · simpa [mget, ha', mdel] using ih

theorem controllerRegister_fst (c : String) (i : Info) (r n : Nat) (st : ServerState) :
    (controllerRegister c i r n st).1 =
      ⟨st.agents, mset st.controllers c ⟨i, generateCode r, []⟩,
       mset st.pairingCodes (generateCode r) ⟨c, n⟩⟩ := rfl

theorem agentRegister_invalid_code (c k : String) (i : Info) (st : ServerState)
    (h : mget st.pairingCodes k = none) :
    agentRegister c k i st =
      (st, [⟨c, "agent:error", .agentError "Invalid pairing code"⟩]) := by
  simp only [agentRegister, h]

theorem agentRegister_controller_gone (c k : String) (i : Info) (st : ServerState)
    (pe : PairingEntry) (h1 : mget st.pairingCodes k = some pe)
    (h2 : mget st.controllers pe.controllerId = none) :
    agentRegister c k i st =
      (st, [⟨c, "agent:error", .agentError "Controller not found"⟩]) := by
  simp only [agentRegister, h1, h2]

theorem agentRegister_success (c k : String) (i : Info) (st : ServerState)
    (pe : PairingEntry) (ctrl : ControllerEntry)
    (h1 : mget st.pairingCodes k = some pe)
    (h2 : mget st.controllers pe.controllerId = some ctrl) :
    agentRegister c k i st =
      (⟨mset st.agents c ⟨i, pe.controllerId⟩,
        mset st.controllers pe.controllerId
          ⟨ctrl.info, ctrl.code, sadd ctrl.agentIds c⟩,
        st.pairingCodes⟩,
       [⟨c, "agent:registered", .agentRegistered c pe.controllerId⟩,
        ⟨pe.controllerId, "controller:agent-joined", .agentJoined c i⟩]) := by
  simp only [agentRegister, h1, h2]

theorem disconnectAgentPhase_not_agent (c : String) (st : ServerState)
    (h : mget st.agents c = none) :
    disconnectAgentPhase c st = (st, []) := by
  simp only [disconnectAgentPhase, h]

theorem disconnectAgentPhase_agent_ctrl (c : String) (st : ServerState)
    (ae : AgentEntry) (ctrl : ControllerEntry)
    (h1 : mget st.agents c = some ae)
    (h2 : mget st.controllers ae.controllerId = some ctrl) :
    disconnectAgentPhase c st =
      (⟨mdel st.agents c,
        mset st.controllers ae.controllerId
          ⟨ctrl.info, ctrl.code, sdel ctrl.agentIds c⟩,
        st.pairingCodes⟩,
       [⟨ae.controllerId, "controller:agent-left", .agentLeft c⟩]) := by
  simp only [disconnectAgentPhase, h1, h2]

theorem disconnectAgentPhase_agent_noctrl (c : String) (st : ServerState)
    (ae : AgentEntry) (h1 : mget st.agents c = some ae)
    (h2 : mget st.controllers ae.controllerId = none) :
    disconnectAgentPhase c st =
      (⟨mdel st.agents c, st.controllers, st.pairingCodes⟩, []) := by
  simp only [disconnectAgentPhase, h1, h2]

theorem disconnectControllerPhase_not_ctrl (c : String) (st : ServerState)
    (h : mget st.controllers c = none) :
    disconnectControllerPhase c st = (st, []) := by
  simp only [disconnectControllerPhase, h]

theorem disconnectControllerPhase_ctrl (c : String) (st : ServerState)
    (ctrl : ControllerEntry) (h : mget st.controllers c = some ctrl) :
    disconnectControllerPhase c st =
      (⟨st.agents,
        mdel st.controllers c,
        st.pairingCodes.filter (fun p => p.2.controllerId != c)⟩,
       (ctrl.agentIds.filter (fun a => (mget st.agents a).isSome)).map
         (fun a => (⟨a, "agent:controller-disconnected", .empty⟩ : Emission))) := by
  simp only [disconnectControllerPhase, h]

theorem disconnect_ctrl_only (c : String) (st : ServerState) (ctrl : ControllerEntry)
    (hna : mget st.agents c = none) (hc : mget st.controllers c = some ctrl) :
    disconnect c st =
      (⟨st.agents,
        mdel st.controllers c,
        st.pairingCodes.filter (fun p => p.2.controllerId != c)⟩,
       (ctrl.agentIds.filter (fun a => (mget st.agents a).isSome)).map
         (fun a => (⟨a, "agent:controller-disconnected", .empty⟩ : Emission))) := by
  unfold disconnect
  rw [disconnectAgentPhase_not_agent c st hna]
  dsimp only
  rw [disconnectControllerPhase_ctrl c st ctrl hc]
  rfl

/-- C3: every agent-to-controller message the relay forwards carries the
sending agent's connection identifier in its `agentId` field, overriding
any `agentId` the sender's payload supplied; the other payload fields
pass through unchanged. -/
theorem agent_relay_injects_origin_id (sender event : String) (data : Payload)
    (live : String → Bool) (st : ServerState) (em : Emission)
    (h : em ∈ (relayAgentEvent sender event data live st).2) :
    ∃ p, em.data = .relayed p ∧ p.agentId = some sender ∧
      p.targetAgent = data.targetAgent ∧ p.rest = data.rest := by
  cases h1 : mget st.agents sender with
  | none =>
    simp only [relayAgentEvent, h1] at h
    simp at h
  | some agent =>
    cases h2 : mget st.controllers agent.controllerId with
    | none =>
      simp only [relayAgentEvent, h1, h2] at h
      simp at h
    | some ctrl =>
      by_cases h3 : live agent.controllerId = true
      · simp only [relayAgentEvent, h1, h2, h3, if_true, List.mem_singleton] at h
        subst h
        exact ⟨⟨some sender, data.targetAgent, data.rest⟩, rfl, rfl, rfl, rfl⟩
      · rw [Bool.not_eq_true] at h3
        simp only [relayAgentEvent, h1, h2, h3] at h
        simp at h

/-- Witness for C3: agent `a` (associated with controller `c`) sends a
frame whose payload claims `agentId = "spoof"`; the forwarded payload
carries `agentId = some "a"`. -/
theorem agent_relay_injects_origin_id_witness :
    ∃ p, (Emission.mk "c" "agent:frame"
        (.relayed ⟨some "a", none, "payload"⟩)).data = .relayed p ∧
      p.agentId = some "a" ∧ p.targetAgent = none ∧ p.rest = "payload" :=
  agent_relay_injects_origin_id "a" "agent:frame" ⟨some "spoof", none, "payload"⟩
    (fun _ => true) wState ⟨"c", "agent:frame", .relayed ⟨some "a", none, "payload"⟩⟩
    (by decide)

/-- C4: an agent registration whose pairing code is unknown reports
`Invalid pairing code`, and one whose code resolves to a no-longer-live
controller reports `Controller not found`; in both cases the state is
returned unchanged (no mutation of agents, controllers or
pairingCodes). -/
theorem agent_register_failure_no_mutation (st : ServerState) (conn code : String)
    (i : Info) :
    (mget st.pairingCodes code = none →
       agentRegister conn code i st =
         (st, [⟨conn, "agent:error", .agentError "Invalid pairing code"⟩])) ∧
    (∀ pe, mget st.pairingCodes code = some pe →
       mget st.controllers pe.controllerId = none →
       agentRegister conn code i st =
         (st, [⟨conn, "agent:error", .agentError "Controller not found"⟩])) :=
  ⟨fun h => agentRegister_invalid_code conn code i st h,
   fun pe h1 h2 => agentRegister_controller_gone conn code i st pe h1 h2⟩

/-- Witness for C4: an unknown code on the empty registry, and a code
whose controller is gone, both fail with an error and leave the state
untouched. -/
theorem agent_register_failure_no_mutation_witness :
    (agentRegister "x" "999999" sampleInfo initState =
       (initState, [⟨"x", "agent:error", .agentError "Invalid pairing code"⟩])) ∧
    (agentRegister "x" "111111" sampleInfo wGhostState =
       (wGhostState, [⟨"x", "agent:error", .agentError "Controller not found"⟩])) :=
  ⟨(agent_register_failure_no_mutation initState "x" "999999" sampleInfo).1 rfl,
   (agent_register_failure_no_mutation wGhostState "x" "111111" sampleInfo).2
     ⟨"c", 0⟩ rfl rfl⟩

/-- C8 (amended): `generateCode` draws from the 6-digit range without
consulting the pairing-code store, and controller registration
unconditionally maps the generated code to the new controller,
overwriting any existing entry for that code. -/
theorem generateCode_no_collision_check_overwrites (st : ServerState) (c : String)
    (i : Info) (r now : Nat) :
    mget ((controllerRegister c i r now st).1).pairingCodes (generateCode r) =
      some ⟨c, now⟩ := by
  rw [controllerRegister_fst]
  exact mget_mset_self _ _ _

/-- Counterexample for C8: with controller `c1` live and owning code
`100000`, a second registration whose random draw collides is issued the
same code — which was already mapped to the still-live `c1` — and its
entry overwrites `c1`'s. -/
theorem generateCode_collision_counterexample :
    generateCode 900000 = generateCode 0 ∧
    mget (run [.ctrlReg "c1" sampleInfo 0 0]).pairingCodes (generateCode 900000) =
      some ⟨"c1", 0⟩ ∧
    (mget (run [.ctrlReg "c1" sampleInfo 0 0,
                .ctrlReg "c2" sampleInfo 900000 5]).controllers "c1").isSome = true ∧
    mget (run [.ctrlReg "c1" sampleInfo 0 0,
               .ctrlReg "c2" sampleInfo 900000 5]).pairingCodes "100000" =
      some ⟨"c2", 5⟩ :=
  ⟨rfl, rfl, rfl, rfl⟩

/-- C9: a control message whose destination field is falsy, unknown to
the registry, or names a non-connected agent is dropped with no state
change and no emission of any kind. -/
theorem control_relay_silent_drop (sender event : String) (data : Payload)
    (live : String → Bool) (st : ServerState) :
    (truthy (jsOr data.agentId data.targetAgent) = false →
       relayControl sender event data live st = (st, [])) ∧
    (∀ t, jsOr data.agentId data.targetAgent = some t →
       (mget st.agents t = none ∨ live t = false) →
       relayControl sender event data live st = (st, [])) := by
  constructor
  · intro h
    cases hj : jsOr data.agentId data.targetAgent with
    | none => simp [relayControl, hj]
    | some t =>
      rw [hj] at h
      simp only [truthy] at h
      simp [relayControl, hj, h]
  · intro t hj hbad
    by_cases ht : (t != "") = true
    · rcases hbad with hbad | hbad
      · simp [relayControl, hj, ht, hbad]
      · cases hm : mget st.agents t with
        | none => simp [relayControl, hj, ht, hm]
        | some ae => simp [relayControl, hj, ht, hm, hbad]
    · have ht' : (t != "") = false := by
        rw [Bool.not_eq_true] at ht
        exact ht
      simp [relayControl, hj, ht']

/-- Witness for C9: a control message addressed to an id absent from the
registry is dropped on the empty state. -/
theorem control_relay_silent_drop_witness :
    relayControl "x" "control:mouse" ⟨some "ghost", none, "m"⟩
      (fun _ => true) initState = (initState, []) :=
  (control_relay_silent_drop "x" "control:mouse" ⟨some "ghost", none, "m"⟩
    (fun _ => true) initState).2 "ghost" rfl (Or.inl rfl)

/-- C10: the control relay performs no sender authorization — its result
is identical for any two senders, and whenever the destination field
names a live registered agent the payload is forwarded to it, whatever
the sender's role. -/
theorem control_relay_ignores_sender_role (s1 s2 event : String) (data : Payload)
    (live : String → Bool) (st : ServerState) :
    relayControl s1 event data live st = relayControl s2 event data live st ∧
    (∀ t ae, jsOr data.agentId data.targetAgent = some t → t ≠ "" →
       mget st.agents t = some ae → live t = true →
       relayControl s1 event data live st =
         (st, [⟨t, event, .relayed data⟩])) := by
  constructor
  · rfl
  · intro t ae hj ht ha hl
    have ht' : (t != "") = true := by simpa using ht
    simp [relayControl, hj, ht', ha, hl]

/-- Witness for C10: the sender `attacker` is itself a registered agent,
not a controller, yet its control message is forwarded to the live agent
`b`, and the relay result equals that of any other sender. -/
theorem control_relay_ignores_sender_role_witness :
    relayControl "a" "control:command" ⟨some "b", none, "cmd"⟩
        (fun _ => true) wState =
      (wState, [⟨"b", "control:command", .relayed ⟨some "b", none, "cmd"⟩⟩]) :=
  (control_relay_ignores_sender_role "a" "anyone" "control:command"
      ⟨some "b", none, "cmd"⟩ (fun _ => true) wState).2
    "b" ⟨sampleInfo, "c"⟩ rfl (by decide) rfl rfl

/-- Counterexample for C1: after `badTraceC1`, live controller `c1` still
lists agent `a` in its `agentIds`, but `a`'s entry points at `c2`. -/
theorem agentLink_invariant_counterexample : ¬ agentLinkInv (run badTraceC1) := by
  intro h
  obtain ⟨ae, hae, hcid⟩ := h "c1" ⟨sampleInfo, "111111", ["a"]⟩ rfl "a" (by decide)
  have hae' : mget (run badTraceC1).agents "a" = some ⟨sampleInfo, "c2"⟩ := rfl
  rw [hae'] at hae
  injection hae with he
  rw [← he] at hcid
  exact absurd hcid (by decide)

/-- Counterexample for C2: after `badTraceC2` the live agent `a` still
carries `controllerId = "c"` although controller `c` is gone. -/
theorem agent_controller_liveness_counterexample :
    ¬ agentControllerLive (run badTraceC2) := by
  intro h
  have hh := h "a" ⟨sampleInfo, "c"⟩ rfl
  exact absurd hh (by decide)

/-- Counterexample for C6: after `badTraceC6` the connection `c` is a key
of both the agents map and the controllers map. -/
theorem role_exclusive_counterexample : ¬ roleExclusive (run badTraceC6) := by
  intro h
  exact h "c" ⟨rfl, rfl⟩

/-- Counterexample for C7: after `badTraceC7` the two live codes `111111`
and `222222` both map to the live controller `c`. -/
theorem code_ownership_counterexample : ¬ codeOwnershipInv (run badTraceC7) := by
  intro h
  have hh := h "111111" ⟨"c", 0⟩ "222222" ⟨"c", 0⟩ rfl rfl rfl rfl
  exact absurd hh (by decide)

theorem mem_sadd (s : List String) (x a : String) (h : x ∈ sadd s a) :
    x ∈ s ∨ x = a := by
  unfold sadd at h
  by_cases hm : a ∈ s
  · rw [if_pos hm] at h
    exact Or.inl h
  · rw [if_neg hm] at h
    rcases List.mem_append.mp h with h | h
    · exact Or.inl h
    · exact Or.inr (List.mem_singleton.mp h)

theorem mem_sdel (s : List String) (x a : String) (h : x ∈ sdel s a) :
    x ∈ s ∧ x ≠ a := by
  unfold sdel at h
  have hh := List.mem_filter.mp h
  exact ⟨hh.1, by simpa using hh.2⟩

/-- C2 (amended): when a controller disconnects, every live agent in its
set is sent `agent:controller-disconnected` and the controller itself is
removed; but the agents' entries are left entirely unchanged — their
`controllerId` fields keep the removed controller's id, which simply no
longer resolves in the controllers map. -/
theorem controller_disconnect_notifies_but_keeps_stale_link (st : ServerState)
    (c : String) (ctrl : ControllerEntry)
    (hc : mget st.controllers c = some ctrl)
    (hna : mget st.agents c = none) :
    (∀ a ae, a ∈ ctrl.agentIds → mget st.agents a = some ae →
       (⟨a, "agent:controller-disconnected", EmitData.empty⟩ : Emission) ∈
         (disconnect c st).2 ∧
       mget (disconnect c st).1.agents a = some ae) ∧
    mget (disconnect c st).1.controllers c = none := by
  rw [disconnect_ctrl_only c st ctrl hna hc]
  constructor
  · intro a ae ha hae
    constructor
    · apply List.mem_map.mpr
      refine ⟨a, ?_, rfl⟩
      apply List.mem_filter.mpr
      exact ⟨ha, by rw [hae]; rfl⟩
    · exact hae
  · exact mget_mdel_self _ _

/-- Witness for C2 (amended): disconnecting controller `c` of `wState`
notifies agent `a`, keeps `a`'s entry (still pointing at `"c"`), and
removes `c`. -/
theorem controller_disconnect_stale_link_witness :
    ((⟨"a", "agent:controller-disconnected", EmitData.empty⟩ : Emission) ∈
        (disconnect "c" wState).2 ∧
      mget (disconnect "c" wState).1.agents "a" = some ⟨sampleInfo, "c"⟩) ∧
    mget (disconnect "c" wState).1.controllers "c" = none := by
  have h := controller_disconnect_notifies_but_keeps_stale_link wState "c"
    ⟨sampleInfo, "111111", ["a", "b"]⟩ rfl rfl
  exact ⟨h.1 "a" ⟨sampleInfo, "c"⟩ (by decide) rfl, h.2⟩

/-- C5: disconnecting a controller whose `agentIds` members are all live
agents associated with it emits exactly one
`agent:controller-disconnected` notification per member — N in total,
one to each affected agent — and deletes every pairing code owned by
that controller, so a subsequent resolve of such a code returns none. -/
theorem controller_disconnect_notification_count (st : ServerState) (c : String)
    (ctrl : ControllerEntry)
    (hc : mget st.controllers c = some ctrl)
    (hna : mget st.agents c = none)
    (hall : ∀ a ∈ ctrl.agentIds, agentOk st c a = true)
    (hnodup : (mkeys st.pairingCodes).Nodup) :
    (disconnect c st).2 = ctrl.agentIds.map
      (fun a => (⟨a, "agent:controller-disconnected", EmitData.empty⟩ : Emission)) ∧
    (∀ k pe, mget st.pairingCodes k = some pe → pe.controllerId = c →
       mget (disconnect c st).1.pairingCodes k = none) := by
  rw [disconnect_ctrl_only c st ctrl hna hc]
  constructor
  · have hfilter : ctrl.agentIds.filter (fun a => (mget st.agents a).isSome) =
        ctrl.agentIds := by
      apply List.filter_eq_self.mpr
      intro a ha
      have hok := hall a ha
      cases hm : mget st.agents a with
      | none =>
        simp only [agentOk, hm] at hok
        cases hok
      | some ae => simp [hm]
    dsimp only
    rw [hfilter]
  · intro k pe hk hcid
    dsimp only
    exact mget_filter_eq_none _ _ _ pe hnodup hk (by simp [hcid])

/-- Witness for C5: disconnecting `c` in `wState` (two associated agents)
yields exactly the two notifications and kills the code `111111`. -/
theorem controller_disconnect_notification_count_witness :
    (disconnect "c" wState).2 =
      [⟨"a", "agent:controller-disconnected", EmitData.empty⟩,
       ⟨"b", "agent:controller-disconnected", EmitData.empty⟩] ∧
    mget (disconnect "c" wState).1.pairingCodes "111111" = none := by
  have h := controller_disconnect_notification_count wState "c"
    ⟨sampleInfo, "111111", ["a", "b"]⟩ rfl rfl (by decide) (by decide)
  exact ⟨h.1, h.2 "111111" ⟨"c", 0⟩ rfl rfl⟩

theorem controllerRegister_agents (c : String) (i : Info) (r n : Nat)
    (st : ServerState) : (controllerRegister c i r n st).1.agents = st.agents := rfl

theorem agentRegister_pairingCodes (c k : String) (i : Info) (st : ServerState) :
    (agentRegister c k i st).1.pairingCodes = st.pairingCodes := by
  cases h1 : mget st.pairingCodes k with
  | none => rw [agentRegister_invalid_code c k i st h1]
  | some pe =>
    cases h2 : mget st.controllers pe.controllerId with
    | none => rw [agentRegister_controller_gone c k i st pe h1 h2]
    | some ctrl => rw [agentRegister_success c k i st pe ctrl h1 h2]

theorem discAgentPhase_pairingCodes (d : String) (st : ServerState) :
    (disconnectAgentPhase d st).1.pairingCodes = st.pairingCodes := by
  cases h1 : mget st.agents d with
  | none => rw [disconnectAgentPhase_not_agent d st h1]
  | some ae =>
    cases h2 : mget st.controllers ae.controllerId with
    | some ctrl => rw [disconnectAgentPhase_agent_ctrl d st ae ctrl h1 h2]
    | none => rw [disconnectAgentPhase_agent_noctrl d st ae h1 h2]

theorem disc_pairingCodes_cases (d : String) (st : ServerState) :
    (disconnect d st).1.pairingCodes = st.pairingCodes ∨
      (disconnect d st).1.pairingCodes =
        st.pairingCodes.filter (fun p => p.2.controllerId != d) := by
  unfold disconnect
  dsimp only
  have h1 := discAgentPhase_pairingCodes d st
  cases h3 : mget (disconnectAgentPhase d st).1.controllers d with
  | none =>
    left
    rw [disconnectControllerPhase_not_ctrl _ _ h3]
    exact h1
  | some ctrl =>
    right
    rw [disconnectControllerPhase_ctrl _ _ ctrl h3]
    dsimp only
    rw [h1]

theorem discCtrlPhase_agents (d : String) (st : ServerState) :
    (disconnectControllerPhase d st).1.agents = st.agents := by
  cases h : mget st.controllers d with
  | none => rw [disconnectControllerPhase_not_ctrl d st h]
  | some ctrl => rw [disconnectControllerPhase_ctrl d st ctrl h]

theorem discAgentPhase_agents_isSome (d : String) (st : ServerState) (a : String)
    (h : (mget (disconnectAgentPhase d st).1.agents a).isSome = true) :
    (mget st.agents a).isSome = true := by
  by_cases had : a = d
  · subst had
    cases h1 : mget st.agents a with
    | some ae => rfl
    | none =>
      rw [disconnectAgentPhase_not_agent a st h1] at h
      rw [h1] at h
      cases h
  · cases h1 : mget st.agents d with
    | none =>
      rw [disconnectAgentPhase_not_agent d st h1] at h
      exact h
    | some ae =>
      cases h2 : mget st.controllers ae.controllerId with
      | some ctrl =>
        rw [disconnectAgentPhase_agent_ctrl d st ae ctrl h1 h2] at h
        dsimp only at h
        rw [mget_mdel_ne _ _ _ had] at h
        exact h
      | none =>
        rw [disconnectAgentPhase_agent_noctrl d st ae h1 h2] at h
        dsimp only at h
        rw [mget_mdel_ne _ _ _ had] at h
        exact h

theorem disc_agents_isSome (d : String) (st : ServerState) (a : String)
    (h : (mget (disconnect d st).1.agents a).isSome = true) :
    (mget st.agents a).isSome = true := by
  apply discAgentPhase_agents_isSome d st a
  unfold disconnect at h
  dsimp only at h
  rw [discCtrlPhase_agents] at h
  exact h

theorem agentRegister_agents_isSome (c k : String) (i : Info) (st : ServerState)
    (a : String)
    (h : (mget (agentRegister c k i st).1.agents a).isSome = true) :
    a = c ∨ (mget st.agents a).isSome = true := by
  cases h1 : mget st.pairingCodes k with
  | none =>
    rw [agentRegister_invalid_code c k i st h1] at h
    exact Or.inr h
  | some pe =>
    cases h2 : mget st.controllers pe.controllerId with
    | none =>
      rw [agentRegister_controller_gone c k i st pe h1 h2] at h
      exact Or.inr h
    | some ctrl =>
      rw [agentRegister_success c k i st pe ctrl h1 h2] at h
      dsimp only at h
      by_cases hac : a = c
      · exact Or.inl hac
      · rw [mget_mset_ne _ _ _ _ hac] at h
        exact Or.inr h

theorem agentLinkInv_init : agentLinkInv initState := by
  intro c ce hc
  simp [initState, mget] at hc

theorem agentLinkInv_ctrlReg (st : ServerState) (c : String) (i : Info) (r n : Nat)
    (h : agentLinkInv st) : agentLinkInv (controllerRegister c i r n st).1 := by
  rw [controllerRegister_fst]
  intro c' ce hc' a ha
  dsimp only at hc' ⊢
  by_cases hcc : c' = c
  · subst hcc
    rw [mget_mset_self] at hc'
    injection hc' with he
    rw [← he] at ha
    cases ha
  · rw [mget_mset_ne _ _ _ _ hcc] at hc'
    exact h c' ce hc' a ha

theorem agentLinkInv_agentReg (st : ServerState) (a code : String) (i : Info)
    (h : agentLinkInv st) (hfresh : mget st.agents a = none) :
    agentLinkInv (agentRegister a code i st).1 := by
  cases h1 : mget st.pairingCodes code with
  | none =>
    rw [agentRegister_invalid_code a code i st h1]
    exact h
  | some pe =>
    cases h2 : mget st.controllers pe.controllerId with
    | none =>
      rw [agentRegister_controller_gone a code i st pe h1 h2]
      exact h
    | some ctrl =>
      rw [agentRegister_success a code i st pe ctrl h1 h2]
      intro c' ce hc' b hb
      dsimp only at hc' ⊢
      by_cases hcc : c' = pe.controllerId
      · subst hcc
        rw [mget_mset_self] at hc'
        injection hc' with he
        rw [← he] at hb
        rcases mem_sadd _ _ _ hb with hbm | hbm
        · obtain ⟨ae, hae, hcid⟩ := h _ ctrl h2 b hbm
          have hba : b ≠ a := by
            intro hba
            rw [hba, hfresh] at hae
            cases hae
          exact ⟨ae, by rw [mget_mset_ne _ _ _ _ hba]; exact hae, hcid⟩
        · subst hbm
          exact ⟨⟨i, pe.controllerId⟩, mget_mset_self _ _ _, rfl⟩
      · rw [mget_mset_ne _ _ _ _ hcc] at hc'
        obtain ⟨ae, hae, hcid⟩ := h c' ce hc' b hb
        have hba : b ≠ a := by
          intro hba
          rw [hba, hfresh] at hae
          cases hae
        exact ⟨ae, by rw [mget_mset_ne _ _ _ _ hba]; exact hae, hcid⟩

theorem agentLinkInv_discAgentPhase (st : ServerState) (d : String)
    (h : agentLinkInv st) : agentLinkInv (disconnectAgentPhase d st).1 := by
  cases h1 : mget st.agents d with
  | none =>
    rw [disconnectAgentPhase_not_agent d st h1]
    exact h
  | some ae =>
    cases h2 : mget st.controllers ae.controllerId with
    | some ctrl =>
      rw [disconnectAgentPhase_agent_ctrl d st ae ctrl h1 h2]
      intro c' ce hc' b hb
      dsimp only at hc' ⊢
      by_cases hcc : c' = ae.controllerId
      · subst hcc
        rw [mget_mset_self] at hc'
        injection hc' with he
        rw [← he] at hb
        obtain ⟨hbm, hbd⟩ := mem_sdel _ _ _ hb
        obtain ⟨ae', hae', hcid⟩ := h _ ctrl h2 b hbm
        exact ⟨ae', by rw [mget_mdel_ne _ _ _ hbd]; exact hae', hcid⟩
      · rw [mget_mset_ne _ _ _ _ hcc] at hc'
        obtain ⟨ae', hae', hcid⟩ := h c' ce hc' b hb
        have hbd : b ≠ d := by
          intro hbd
          rw [hbd, h1] at hae'
          injection hae' with he'
          rw [← he'] at hcid
          exact hcc hcid.symm
        exact ⟨ae', by rw [mget_mdel_ne _ _ _ hbd]; exact hae', hcid⟩
    | none =>
      rw [disconnectAgentPhase_agent_noctrl d st ae h1 h2]
      intro c' ce hc' b hb
      dsimp only at hc' ⊢
      obtain ⟨ae', hae', hcid⟩ := h c' ce hc' b hb
      have hbd : b ≠ d := by
        intro hbd
        rw [hbd, h1] at hae'
        injection hae' with he'
        rw [← he'] at hcid
        rw [hcid] at h2
        rw [hc'] at h2
        cases h2
      exact ⟨ae', by rw [mget_mdel_ne _ _ _ hbd]; exact hae', hcid⟩

theorem agentLinkInv_discCtrlPhase (st : ServerState) (d : String)
    (h : agentLinkInv st) : agentLinkInv (disconnectControllerPhase d st).1 := by
  cases h1 : mget st.controllers d with
  | none =>
    rw [disconnectControllerPhase_not_ctrl d st h1]
    exact h
  | some ctrl =>
    rw [disconnectControllerPhase_ctrl d st ctrl h1]
    intro c' ce hc' b hb
    dsimp only at hc' ⊢
    have hcd : c' ≠ d := by
      intro hcd
      rw [hcd, mget_mdel_self] at hc'
      cases hc'
    rw [mget_mdel_ne _ _ _ hcd] at hc'
    exact h c' ce hc' b hb

theorem agentLinkInv_disc (st : ServerState) (d : String) (h : agentLinkInv st) :
    agentLinkInv (disconnect d st).1 := by
  unfold disconnect
  dsimp only
  exact agentLinkInv_discCtrlPhase _ d (agentLinkInv_discAgentPhase st d h)

theorem agentRegTargets_ctrlReg (c : String) (i : Info) (r n : Nat)
    (rest : List Op) :
    agentRegTargets (Op.ctrlReg c i r n :: rest) = agentRegTargets rest := rfl

theorem agentRegTargets_agentReg (c k : String) (i : Info) (rest : List Op) :
    agentRegTargets (Op.agentReg c k i :: rest) = c :: agentRegTargets rest := rfl

theorem agentRegTargets_disc (d : String) (rest : List Op) :
    agentRegTargets (Op.disc d :: rest) = agentRegTargets rest := rfl

theorem ctrlRegTargets_ctrlReg (c : String) (i : Info) (r n : Nat)
    (rest : List Op) :
    ctrlRegTargets (Op.ctrlReg c i r n :: rest) = c :: ctrlRegTargets rest := rfl

theorem ctrlRegTargets_agentReg (c k : String) (i : Info) (rest : List Op) :
    ctrlRegTargets (Op.agentReg c k i :: rest) = ctrlRegTargets rest := rfl

theorem ctrlRegTargets_disc (d : String) (rest : List Op) :
    ctrlRegTargets (Op.disc d :: rest) = ctrlRegTargets rest := rfl

theorem agentLink_main (ops : List Op) (st : ServerState)
    (hinv : agentLinkInv st)
    (hfresh : ∀ a, (mget st.agents a).isSome = true → a ∉ agentRegTargets ops)
    (hnd : (agentRegTargets ops).Nodup) :
    agentLinkInv (List.foldl step st ops) := by
  induction ops generalizing st with
  | nil => exact hinv
  | cons op rest ih =>
    rw [List.foldl_cons]
    cases op with
    | ctrlReg c i r n =>
      rw [agentRegTargets_ctrlReg] at hfresh hnd
      apply ih _ (agentLinkInv_ctrlReg st c i r n hinv) _ hnd
      intro a ha
      rw [controllerRegister_agents] at ha
      exact hfresh a ha
    | agentReg c k i =>
      rw [agentRegTargets_agentReg] at hfresh hnd
      rw [List.nodup_cons] at hnd
      have hc : mget st.agents c = none := by
        cases hmc : mget st.agents c with
        | none => rfl
        | some ae =>
          exact absurd (List.mem_cons_self c _) (hfresh c (by rw [hmc]; rfl))
      apply ih _ (agentLinkInv_agentReg st c k i hinv hc) _ hnd.2
      intro a ha
      rcases agentRegister_agents_isSome c k i st a ha with hac | hsa
      · subst hac
        exact hnd.1
      · intro hmem
        exact hfresh a hsa (List.mem_cons_of_mem _ hmem)
    | disc d =>
      rw [agentRegTargets_disc] at hfresh hnd
      apply ih _ (agentLinkInv_disc st d hinv) _ hnd
      intro a ha
      exact hfresh a (disc_agents_isSome d st a ha)

/-- C1 (amended): for every sequence of controller registrations, agent
registrations and disconnections in which each connection performs at
most one agent registration, at every point every entry in a live
controller's `agentIds` set refers to a currently-live agent whose
`controllerId` equals that controller.  (Without the restriction the
invariant fails: an agent that re-registers under a second controller
stays in the first controller's set while its entry points at the
second.) -/
theorem agentLink_invariant_of_single_registration (ops : List Op)
    (hnd : (agentRegTargets ops).Nodup) : agentLinkInv (run ops) :=
  agentLink_main ops initState agentLinkInv_init
    (fun a ha => by simp [initState, mget] at ha) hnd

/-- Witness for C1 (amended) on the trace `goodTrace`. -/
theorem agentLink_invariant_witness :
    (agentRegTargets goodTrace).Nodup ∧ agentLinkInv (run goodTrace) :=
  ⟨by decide, agentLink_invariant_of_single_registration goodTrace (by decide)⟩

theorem mget_agents_run_origin (ops : List Op) (st : ServerState) (a : String)
    (h : (mget (List.foldl step st ops).agents a).isSome = true) :
    (mget st.agents a).isSome = true ∨ a ∈ agentRegTargets ops := by
  induction ops generalizing st with
  | nil => exact Or.inl h
  | cons op rest ih =>
    rw [List.foldl_cons] at h
    rcases ih (step st op) h with h' | h'
    · cases op with
      | ctrlReg c i r n =>
        rw [show step st (Op.ctrlReg c i r n) = (controllerRegister c i r n st).1
              from rfl, controllerRegister_agents] at h'
        exact Or.inl h'
      | agentReg c k i =>
        rcases agentRegister_agents_isSome c k i st a h' with hac | hsa
        · exact Or.inr (by rw [agentRegTargets_agentReg, hac]; exact
            List.mem_cons_self _ _)
        · exact Or.inl hsa
      | disc d =>
        exact Or.inl (disc_agents_isSome d st a h')
    · cases op with
      | ctrlReg c i r n => exact Or.inr h'
      | agentReg c k i =>
        exact Or.inr (by rw [agentRegTargets_agentReg]; exact
          List.mem_cons_of_mem _ h')
      | disc d => exact Or.inr h'

theorem controllerRegister_controllers_isSome (c : String) (i : Info) (r n : Nat)
    (st : ServerState) (a : String)
    (h : (mget (controllerRegister c i r n st).1.controllers a).isSome = true) :
    a = c ∨ (mget st.controllers a).isSome = true := by
  rw [controllerRegister_fst] at h
  dsimp only at h
  by_cases hac : a = c
  · exact Or.inl hac
  · rw [mget_mset_ne _ _ _ _ hac] at h
    exact Or.inr h

theorem agentRegister_controllers_isSome (c k : String) (i : Info)
    (st : ServerState) (a : String)
    (h : (mget (agentRegister c k i st).1.controllers a).isSome = true) :
    (mget st.controllers a).isSome = true := by
  cases h1 : mget st.pairingCodes k with
  | none =>
    rw [agentRegister_invalid_code c k i st h1] at h
    exact h
  | some pe =>
    cases h2 : mget st.controllers pe.controllerId with
    | none =>
      rw [agentRegister_controller_gone c k i st pe h1 h2] at h
      exact h
    | some ctrl =>
      rw [agentRegister_success c k i st pe ctrl h1 h2] at h
      dsimp only at h
      by_cases hac : a = pe.controllerId
      · rw [hac, h2]
        rfl
      · rw [mget_mset_ne _ _ _ _ hac] at h
        exact h

theorem discAgentPhase_controllers_isSome (d : String) (st : ServerState)
    (a : String)
    (h : (mget (disconnectAgentPhase d st).1.controllers a).isSome = true) :
    (mget st.controllers a).isSome = true := by
  cases h1 : mget st.agents d with
  | none =>
    rw [disconnectAgentPhase_not_agent d st h1] at h
    exact h
  | some ae =>
    cases h2 : mget st.controllers ae.controllerId with
    | some ctrl =>
      rw [disconnectAgentPhase_agent_ctrl d st ae ctrl h1 h2] at h
      dsimp only at h
      by_cases hac : a = ae.controllerId
      · rw [hac, h2]
        rfl
      · rw [mget_mset_ne _ _ _ _ hac] at h
        exact h
    | none =>
      rw [disconnectAgentPhase_agent_noctrl d st ae h1 h2] at h
      exact h

theorem disc_controllers_isSome (d : String) (st : ServerState) (a : String)
    (h : (mget (disconnect d st).1.controllers a).isSome = true) :
    (mget st.controllers a).isSome = true := by
  unfold disconnect at h
  dsimp only at h
  apply discAgentPhase_controllers_isSome d st a
  set st1 := (disconnectAgentPhase d st).1 with hst1
  cases h3 : mget st1.controllers d with
  | none =>
    rw [disconnectControllerPhase_not_ctrl _ _ h3] at h
    exact h
  | some ctrl =>
    rw [disconnectControllerPhase_ctrl _ _ ctrl h3] at h
    dsimp only at h
    by_cases had : a = d
    · rw [had, mget_mdel_self] at h
      cases h
    · rw [mget_mdel_ne _ _ _ had] at h
      exact h

theorem mget_controllers_run_origin (ops : List Op) (st : ServerState) (a : String)
    (h : (mget (List.foldl step st ops).controllers a).isSome = true) :
    (mget st.controllers a).isSome = true ∨ a ∈ ctrlRegTargets ops := by
  induction ops generalizing st with
  | nil => exact Or.inl h
  | cons op rest ih =>
    rw [List.foldl_cons] at h
    rcases ih (step st op) h with h' | h'
    · cases op with
      | ctrlReg c i r n =>
        rcases controllerRegister_controllers_isSome c i r n st a h' with hac | hsa
        · exact Or.inr (by rw [ctrlRegTargets_ctrlReg, hac]; exact
            List.mem_cons_self _ _)
        · exact Or.inl hsa
      | agentReg c k i =>
        exact Or.inl (agentRegister_controllers_isSome c k i st a h')
      | disc d =>
        exact Or.inl (disc_controllers_isSome d st a h')
    · cases op with
      | ctrlReg c i r n =>
        exact Or.inr (by rw [ctrlRegTargets_ctrlReg]; exact
          List.mem_cons_of_mem _ h')
      | agentReg c k i => exact Or.inr h'
      | disc d => exact Or.inr h'

/-- C6 (amended): a connection id is a key of at most one of the agents
and controllers maps throughout every sequence in which no connection
performs both a controller registration and an agent registration.
(Without the restriction the invariant fails: neither register handler
checks the other role's map, so a connection registering in both roles is
in both maps.) -/
theorem role_exclusive_of_disjoint_registrations (ops : List Op)
    (hdisj : disjointTargets ops = true) : roleExclusive (run ops) := by
  intro c hc
  obtain ⟨hag, hct⟩ := hc
  rcases mget_agents_run_origin ops initState c hag with h | h
  · simp [initState, mget] at h
  · rcases mget_controllers_run_origin ops initState c hct with h' | h'
    · simp [initState, mget] at h'
    · unfold disjointTargets at hdisj
      rw [List.all_eq_true] at hdisj
      exact of_decide_eq_true (hdisj c h) h'

/-- Witness for C6 (amended) on the trace `goodTrace`. -/
theorem role_exclusive_witness :
    disjointTargets goodTrace = true ∧ roleExclusive (run goodTrace) :=
  ⟨by decide, role_exclusive_of_disjoint_registrations goodTrace (by decide)⟩

theorem controllerRegister_pairingCodes (c : String) (i : Info) (r n : Nat)
    (st : ServerState) :
    (controllerRegister c i r n st).1.pairingCodes =
      mset st.pairingCodes (generateCode r) ⟨c, n⟩ := rfl

theorem code_ownership_main (ops : List Op) (st : ServerState)
    (hn : (mkeys st.pairingCodes).Nodup)
    (hs : ∀ k1 e1 k2 e2, mget st.pairingCodes k1 = some e1 →
        mget st.pairingCodes k2 = some e2 →
        e1.controllerId = e2.controllerId → k1 = k2)
    (hb : ∀ k e, mget st.pairingCodes k = some e →
        e.controllerId ∉ ctrlRegTargets ops)
    (hnd : (ctrlRegTargets ops).Nodup) :
    ∀ k1 e1 k2 e2, mget (List.foldl step st ops).pairingCodes k1 = some e1 →
      mget (List.foldl step st ops).pairingCodes k2 = some e2 →
      e1.controllerId = e2.controllerId → k1 = k2 := by
  induction ops generalizing st with
  | nil => exact hs
  | cons op rest ih =>
    rw [List.foldl_cons]
    cases op with
    | ctrlReg c i r n =>
      rw [ctrlRegTargets_ctrlReg] at hb hnd
      rw [List.nodup_cons] at hnd
      refine ih (step st (.ctrlReg c i r n)) ?_ ?_ ?_ hnd.2
      · rw [show step st (.ctrlReg c i r n) = (controllerRegister c i r n st).1
            from rfl, controllerRegister_pairingCodes]
        exact nodup_mkeys_mset _ _ _ hn
      · rw [show step st (.ctrlReg c i r n) = (controllerRegister c i r n st).1
            from rfl, controllerRegister_pairingCodes]
        intro k1 e1 k2 e2 h1 h2 hcid
        by_cases hk1 : k1 = generateCode r
        · by_cases hk2 : k2 = generateCode r
          · rw [hk1, hk2]
          · subst hk1
            rw [mget_mset_self] at h1
            injection h1 with he1
            rw [mget_mset_ne _ _ _ _ hk2] at h2
            rw [← he1] at hcid
            have hmem : e2.controllerId ∈ c :: ctrlRegTargets rest := by
              rw [← hcid]
              exact List.mem_cons_self _ _
            exact absurd hmem (hb k2 e2 h2)
        · by_cases hk2 : k2 = generateCode r
          · subst hk2
            rw [mget_mset_self] at h2
            injection h2 with he2
            rw [mget_mset_ne _ _ _ _ hk1] at h1
            rw [← he2] at hcid
            have hmem : e1.controllerId ∈ c :: ctrlRegTargets rest := by
              rw [hcid]
              exact List.mem_cons_self _ _
            exact absurd hmem (hb k1 e1 h1)
          · rw [mget_mset_ne _ _ _ _ hk1] at h1
            rw [mget_mset_ne _ _ _ _ hk2] at h2
            exact hs k1 e1 k2 e2 h1 h2 hcid
      · rw [show step st (.ctrlReg c i r n) = (controllerRegister c i r n st).1
            from rfl, controllerRegister_pairingCodes]
        intro k e h
        by_cases hk : k = generateCode r
        · subst hk
          rw [mget_mset_self] at h
          injection h with he
          rw [← he]
          exact hnd.1
        · rw [mget_mset_ne _ _ _ _ hk] at h
          exact fun hm => hb k e h (List.mem_cons_of_mem _ hm)
    | agentReg c k i =>
      rw [ctrlRegTargets_agentReg] at hb hnd
      refine ih (step st (.agentReg c k i)) ?_ ?_ ?_ hnd
      · rw [show step st (.agentReg c k i) = (agentRegister c k i st).1 from rfl,
            agentRegister_pairingCodes]
        exact hn
      · rw [show step st (.agentReg c k i) = (agentRegister c k i st).1 from rfl,
            agentRegister_pairingCodes]
        exact hs
      · rw [show step st (.agentReg c k i) = (agentRegister c k i st).1 from rfl,
            agentRegister_pairingCodes]
        exact hb
    | disc d =>
      rw [ctrlRegTargets_disc] at hb hnd
      rcases disc_pairingCodes_cases d st with hpc | hpc
      · refine ih (step st (.disc d)) ?_ ?_ ?_ hnd
        · rw [show step st (.disc d) = (disconnect d st).1 from rfl, hpc]
          exact hn
        · rw [show step st (.disc d) = (disconnect d st).1 from rfl, hpc]
          exact hs
        · rw [show step st (.disc d) = (disconnect d st).1 from rfl, hpc]
          exact hb
      · refine ih (step st (.disc d)) ?_ ?_ ?_ hnd
        · rw [show step st (.disc d) = (disconnect d st).1 from rfl, hpc]
          exact nodup_mkeys_filter _ _ hn
        · rw [show step st (.disc d) = (disconnect d st).1 from rfl, hpc]
          intro k1 e1 k2 e2 h1 h2 hcid
          have h1' := ((mget_filter_eq_some _ _ _ _ hn).mp h1).1
          have h2' := ((mget_filter_eq_some _ _ _ _ hn).mp h2).1
          exact hs k1 e1 k2 e2 h1' h2' hcid
        · rw [show step st (.disc d) = (disconnect d st).1 from rfl, hpc]
          intro k e h
          exact hb k e ((mget_filter_eq_some _ _ _ _ hn).mp h).1

/-- C7 (amended): each live pairing code maps to a single controller, and
each live controller owns at most one live pairing code, throughout every
sequence in which each connection registers as a controller at most
once.  (Without the restriction the invariant fails: a second
`controller:register` by the same connection leaves the first code live
and pointing at the same controller.) -/
theorem code_ownership_of_single_controller_registration (ops : List Op)
    (hnd : (ctrlRegTargets ops).Nodup) : codeOwnershipInv (run ops) := by
  intro k1 e1 k2 e2 h1 h2 hcid hlive
  exact code_ownership_main ops initState (by decide)
    (fun k1 e1 k2 e2 h1 => by simp [initState, mget] at h1)
    (fun k e h => by simp [initState, mget] at h)
    hnd k1 e1 k2 e2 h1 h2 hcid

/-- Witness for C7 (amended) on the trace `goodTrace`. -/
theorem code_ownership_witness :
    (ctrlRegTargets goodTrace).Nodup ∧ codeOwnershipInv (run goodTrace) :=
  ⟨by decide, code_ownership_of_single_controller_registration goodTrace (by decide)⟩

end Relay
